import Mathlib

/-
Verification of the Mergington High School activities backend
(`src/app.py`, `src/db.py`): a shallow embedding of the relational
store (Activity / Participant rows), the seed-on-first-run
initialization, and the signup / unregister request handlers,
together with proofs of the specified functional properties and
invariants.
-/

namespace MHS

/-- An `Activity` row of the `activities` table (`db.py`):
surrogate `id`, unique `name`, optional `description` and `schedule`,
and `max_participants` (default 0, meaning unlimited). -/
structure Activity where
  id : Nat
  name : String
  description : Option String
  schedule : Option String
  max_participants : Nat
deriving DecidableEq, Repr

/-- A `Participant` row of the `participants` table (`db.py`):
surrogate `id`, `email`, and the owning `activity_id`. -/
structure Participant where
  id : Nat
  email : String
  activity_id : Nat
deriving DecidableEq, Repr

/-- The relational store: the rows of both tables in insertion order,
plus the autoincrement counters SQLite uses to assign surrogate ids. -/
structure Store where
  activities : List Activity
  participants : List Participant
  nextActivityId : Nat
  nextParticipantId : Nat
deriving DecidableEq, Repr

/-- The four caller-visible errors of the HTTP surface (`app.py`). -/
inductive ApiError where
  | NotFound
  | AlreadyEnrolled
  | Full
  | NotEnrolled
deriving DecidableEq, Repr

/-- The HTTP status code each `HTTPException` in `app.py` carries. -/
def statusCode : ApiError → Nat
  | .NotFound => 404
  | .AlreadyEnrolled => 400
  | .Full => 400
  | .NotEnrolled => 400

/-- `db.query(Activity).filter(Activity.name == activity_name).first()`:
the first stored activity with the given name. -/
def findActivity (s : Store) (activity_name : String) : Option Activity :=
  s.activities.find? (fun a => a.name == activity_name)

/-- `act.participants`: all Participant rows owned by the activity
with the given id. -/
def rosterOf (s : Store) (actId : Nat) : List Participant :=
  s.participants.filter (fun p => p.activity_id == actId)

/-- `db.query(Participant).filter(Participant.activity_id == act.id,
Participant.email == email).first()`: the first participant row of the
given activity with the given email. -/
def findParticipant (s : Store) (actId : Nat) (email : String) : Option Participant :=
  s.participants.find? (fun p => p.activity_id == actId && p.email == email)

/-- `signup_for_activity` (`app.py`): look the activity up by name
(404 if absent), reject a duplicate enrollment (400), reject when a
positive capacity is already reached (400), otherwise insert a new
Participant row and commit. On an error nothing is committed, so the
store comes back unchanged. -/
def signup_for_activity (s : Store) (activity_name email : String) :
    Store × Except ApiError String :=
  match findActivity s activity_name with
  | none => (s, .error .NotFound)
  | some act =>
    match findParticipant s act.id email with
    | some _ => (s, .error .AlreadyEnrolled)
    | none =>
      if act.max_participants ≠ 0 ∧ act.max_participants ≤ (rosterOf s act.id).length then
        (s, .error .Full)
      else
        ({ s with
            participants :=
              s.participants ++ [⟨s.nextParticipantId, email, act.id⟩],
            nextParticipantId := s.nextParticipantId + 1 },
         .ok s!"Signed up {email} for {activity_name}")

/-- `unregister_from_activity` (`app.py`): look the activity up by name
(404 if absent), look the participant row up (400 if absent), otherwise
delete that row and commit. -/
def unregister_from_activity (s : Store) (activity_name email : String) :
    Store × Except ApiError String :=
  match findActivity s activity_name with
  | none => (s, .error .NotFound)
  | some act =>
    match findParticipant s act.id email with
    | none => (s, .error .NotEnrolled)
    | some p =>
      ({ s with participants := s.participants.erase p },
       .ok s!"Unregistered {email} from {activity_name}")

/-- One value of the seed mapping in `app.py`: description, schedule,
capacity (possibly unset) and initial participant emails. -/
structure SeedInfo where
  description : Option String
  schedule : Option String
  max_participants : Option Nat
  participants : List String
deriving DecidableEq, Repr

/-- The body of the seeding loop in `init_db` (`db.py`): insert one
Activity row (capacity `info.get("max_participants") or 0`), then one
Participant row per listed email. -/
def insertSeedEntry (s : Store) (entry : String × SeedInfo) : Store :=
  let act : Activity :=
    { id := s.nextActivityId
      name := entry.1
      description := entry.2.description
      schedule := entry.2.schedule
      max_participants := entry.2.max_participants.getD 0 }
  let s1 : Store :=
    { s with
        activities := s.activities ++ [act]
        nextActivityId := s.nextActivityId + 1 }
  entry.2.participants.foldl
    (fun st em =>
      { st with
          participants := st.participants ++ [⟨st.nextParticipantId, em, act.id⟩]
          nextParticipantId := st.nextParticipantId + 1 })
    s1

/-- `init_db` (`db.py`): with no seed data it only ensures the schema;
otherwise it seeds the store from the mapping, but only when no
Activity row exists yet. -/
def init_db (s : Store) (seed : List (String × SeedInfo)) : Store :=
  if seed.isEmpty then s
  else if 0 < s.activities.length then s
  else seed.foldl insertSeedEntry s

/-- The hardcoded in-memory seed `activities` of `app.py`. -/
def seed_data : List (String × SeedInfo) :=
  [ ("Chess Club",
     { description := some "Learn strategies and compete in chess tournaments"
       schedule := some "Fridays, 3:30 PM - 5:00 PM"
       max_participants := some 12
       participants := ["michael@mergington.edu", "daniel@mergington.edu"] }),
    ("Programming Class",
     { description := some "Learn programming fundamentals and build software projects"
       schedule := some "Tuesdays and Thursdays, 3:30 PM - 4:30 PM"
       max_participants := some 20
       participants := ["emma@mergington.edu", "sophia@mergington.edu"] }),
    ("Gym Class",
     { description := some "Physical education and sports activities"
       schedule := some "Mondays, Wednesdays, Fridays, 2:00 PM - 3:00 PM"
       max_participants := some 30
       participants := ["john@mergington.edu", "olivia@mergington.edu"] }),
    ("Soccer Team",
     { description := some "Join the school soccer team and compete in matches"
       schedule := some "Tuesdays and Thursdays, 4:00 PM - 5:30 PM"
       max_participants := some 22
       participants := ["liam@mergington.edu", "noah@mergington.edu"] }),
    ("Basketball Team",
     { description := some "Practice and play basketball with the school team"
       schedule := some "Wednesdays and Fridays, 3:30 PM - 5:00 PM"
       max_participants := some 15
       participants := ["ava@mergington.edu", "mia@mergington.edu"] }),
    ("Art Club",
     { description := some "Explore your creativity through painting and drawing"
       schedule := some "Thursdays, 3:30 PM - 5:00 PM"
       max_participants := some 15
       participants := ["amelia@mergington.edu", "harper@mergington.edu"] }),
    ("Drama Club",
     { description := some "Act, direct, and produce plays and performances"
       schedule := some "Mondays and Wednesdays, 4:00 PM - 5:30 PM"
       max_participants := some 20
       participants := ["ella@mergington.edu", "scarlett@mergington.edu"] }),
    ("Math Club",
     { description := some "Solve challenging problems and participate in math competitions"
       schedule := some "Tuesdays, 3:30 PM - 4:30 PM"
       max_participants := some 10
       participants := ["james@mergington.edu", "benjamin@mergington.edu"] }),
    ("Debate Team",
     { description := some "Develop public speaking and argumentation skills"
       schedule := some "Fridays, 4:00 PM - 5:30 PM"
       max_participants := some 12
       participants := ["charlotte@mergington.edu", "henry@mergington.edu"] }) ]

/-- A freshly created database file: both tables empty, SQLite
autoincrement counters at 1. -/
def emptyStore : Store :=
  { activities := [], participants := [], nextActivityId := 1, nextParticipantId := 1 }

/-- The store right after the startup hook `on_startup` ran on a fresh
database: `init_db(seed_data=activities)` on the empty store. -/
def initState : Store :=
  init_db emptyStore seed_data

/-- The email is on the roster of the activity with id `actId`. -/
def isEnrolled (s : Store) (actId : Nat) (email : String) : Prop :=
  ∃ p ∈ s.participants, p.activity_id = actId ∧ p.email = email

instance (s : Store) (actId : Nat) (email : String) :
    Decidable (isEnrolled s actId email) :=
  inferInstanceAs (Decidable (∃ p ∈ s.participants, _ ∧ _))

/-- The activity has a positive capacity that its roster has reached. -/
def isFull (s : Store) (act : Activity) : Prop :=
  act.max_participants ≠ 0 ∧ act.max_participants ≤ (rosterOf s act.id).length

/-- Serialized executions: every store reachable from the seeded
initial state by signup and unregister requests (failing requests
leave the store as they found it). -/
inductive Reachable : Store → Prop where
  | init : Reachable initState
  | signup (s : Store) (n e : String) :
      Reachable s → Reachable (signup_for_activity s n e).1
  | unregister (s : Store) (n e : String) :
      Reachable s → Reachable (unregister_from_activity s n e).1

/-- No two Activity rows share a surrogate id. -/
def ActivityIdsNodup (s : Store) : Prop :=
  (s.activities.map (fun a => a.id)).Nodup

instance (s : Store) : Decidable (ActivityIdsNodup s) := by
  unfold ActivityIdsNodup; infer_instance

/-- Every activity with a positive capacity has a roster within it. -/
def CapacityOK (s : Store) : Prop :=
  ∀ a ∈ s.activities, 0 < a.max_participants →
    (rosterOf s a.id).length ≤ a.max_participants

instance (s : Store) : Decidable (CapacityOK s) := by
  unfold CapacityOK; infer_instance

/-- Within one activity no two Participant rows share an email. -/
def UniqueEmails (s : Store) : Prop :=
  s.participants.Pairwise
    (fun p q => p.activity_id = q.activity_id → p.email ≠ q.email)

instance (s : Store) : Decidable (UniqueEmails s) := by
  unfold UniqueEmails; infer_instance

/-- The inductive invariant maintained by every request handler. -/
def Inv (s : Store) : Prop :=
  ActivityIdsNodup s ∧ CapacityOK s ∧ UniqueEmails s

instance (s : Store) : Decidable (Inv s) := by
  unfold Inv; infer_instance

instance (s : Store) (act : Activity) : Decidable (isFull s act) := by
  unfold isFull; infer_instance

lemma findActivity_mem {s : Store} {n : String} {act : Activity}
    (h : findActivity s n = some act) : act ∈ s.activities :=
  List.mem_of_find?_eq_some h

lemma findParticipant_mem {s : Store} {aid : Nat} {e : String} {p : Participant}
    (h : findParticipant s aid e = some p) :
    p ∈ s.participants ∧ p.activity_id = aid ∧ p.email = e := by
  have h1 := List.mem_of_find?_eq_some h
  have h2 := List.find?_some h
  simp only [Bool.and_eq_true, beq_iff_eq] at h2
  exact ⟨h1, h2.1, h2.2⟩

lemma findParticipant_none {s : Store} {aid : Nat} {e : String}
    (h : findParticipant s aid e = none) : ¬ isEnrolled s aid e := by
  rw [findParticipant, List.find?_eq_none] at h
  rintro ⟨p, hp, h1, h2⟩
  exact h p hp (by simp [h1, h2])

lemma findParticipant_of_enrolled {s : Store} {aid : Nat} {e : String}
    (h : isEnrolled s aid e) : ∃ p, findParticipant s aid e = some p := by
  cases hP : findParticipant s aid e with
  | none => exact absurd h (findParticipant_none hP)
  | some p => exact ⟨p, rfl⟩

lemma find?_append_none {α : Type} (q : α → Bool) {l₁ : List α} (l₂ : List α)
    (h : l₁.find? q = none) : (l₁ ++ l₂).find? q = l₂.find? q := by
  induction l₁ with
  | nil => rfl
  | cons a l ih =>
    cases hqa : q a with
    | true => rw [List.find?_cons_of_pos _ hqa] at h; exact absurd h (by simp)
    | false =>
      have hqa2 : ¬ q a = true := by simp [hqa]
      rw [List.find?_cons_of_neg _ hqa2] at h
      rw [List.cons_append, List.find?_cons_of_neg _ hqa2]
      exact ih h

/-- Exhaustive characterization of `signup_for_activity`: the four
branches of the handler and the exact result in each. -/
lemma signup_cases (s : Store) (n e : String) :
    (findActivity s n = none ∧
       signup_for_activity s n e = (s, .error .NotFound)) ∨
    (∃ act p, findActivity s n = some act ∧ findParticipant s act.id e = some p ∧
       signup_for_activity s n e = (s, .error .AlreadyEnrolled)) ∨
    (∃ act, findActivity s n = some act ∧ findParticipant s act.id e = none ∧
       isFull s act ∧ signup_for_activity s n e = (s, .error .Full)) ∨
    (∃ act, findActivity s n = some act ∧ findParticipant s act.id e = none ∧
       ¬ isFull s act ∧
       signup_for_activity s n e =
         ({ s with
             participants := s.participants ++ [⟨s.nextParticipantId, e, act.id⟩],
             nextParticipantId := s.nextParticipantId + 1 },
          .ok s!"Signed up {e} for {n}")) := by
  unfold signup_for_activity
  split
  next hA => exact Or.inl ⟨hA, rfl⟩
  next act hA =>
    split
    next p hP => exact Or.inr (Or.inl ⟨act, p, hA, hP, rfl⟩)
    next hP =>
      split
      next hful => exact Or.inr (Or.inr (Or.inl ⟨act, hA, hP, hful, rfl⟩))
      next hful => exact Or.inr (Or.inr (Or.inr ⟨act, hA, hP, hful, rfl⟩))

/-- Exhaustive characterization of `unregister_from_activity`. -/
lemma unregister_cases (s : Store) (n e : String) :
    (findActivity s n = none ∧
       unregister_from_activity s n e = (s, .error .NotFound)) ∨
    (∃ act, findActivity s n = some act ∧ findParticipant s act.id e = none ∧
       unregister_from_activity s n e = (s, .error .NotEnrolled)) ∨
    (∃ act p, findActivity s n = some act ∧ findParticipant s act.id e = some p ∧
       unregister_from_activity s n e =
         ({ s with participants := s.participants.erase p },
          .ok s!"Unregistered {e} from {n}")) := by
  unfold unregister_from_activity
  split
  next hA => exact Or.inl ⟨hA, rfl⟩
  next act hA =>
    split
    next hP => exact Or.inr (Or.inl ⟨act, hA, hP, rfl⟩)
    next p hP => exact Or.inr (Or.inr ⟨act, p, hA, hP, rfl⟩)

/-- Inserting a fresh, non-duplicate participant into a non-full
activity preserves the invariant. -/
lemma inv_add_participant (s : Store) (act : Activity) (e : String)
    (hmem : act ∈ s.activities) (hP : findParticipant s act.id e = none)
    (hful : ¬ isFull s act) (h : Inv s) :
    Inv { s with
            participants := s.participants ++ [⟨s.nextParticipantId, e, act.id⟩],
            nextParticipantId := s.nextParticipantId + 1 } := by
  obtain ⟨hids, hcap, huniq⟩ := h
  rw [findParticipant, List.find?_eq_none] at hP
  refine ⟨hids, ?_, ?_⟩
  · intro b hb hbpos
    show ((s.participants ++ [(⟨s.nextParticipantId, e, act.id⟩ : Participant)]).filter
        (fun p => p.activity_id == b.id)).length ≤ b.max_participants
    rw [List.filter_append]
    by_cases hid : act.id = b.id
    · have hab : act = b := List.inj_on_of_nodup_map hids hmem hb hid
      subst hab
      have hlt : (rosterOf s act.id).length < act.max_participants := by
        rcases Decidable.not_and_iff_or_not.mp hful with h0 | hlen
        · exact absurd (Nat.pos_iff_ne_zero.mp hbpos) (by simpa using h0)
        · exact Nat.lt_of_not_le (fun hc => hlen (by simpa using hc))
      have : (List.filter (fun p => p.activity_id == act.id)
          [(⟨s.nextParticipantId, e, act.id⟩ : Participant)]).length ≤ 1 := by simp
      calc ((rosterOf s act.id) ++ _).length ≤ (rosterOf s act.id).length + 1 := by
            rw [List.length_append]; omega
        _ ≤ act.max_participants := hlt
    · have : List.filter (fun p => p.activity_id == b.id)
          [(⟨s.nextParticipantId, e, act.id⟩ : Participant)] = [] := by
        simp [hid]
      rw [this, List.append_nil]
      exact hcap b hb hbpos
  · show (s.participants ++ [(⟨s.nextParticipantId, e, act.id⟩ : Participant)]).Pairwise
        (fun p q => p.activity_id = q.activity_id → p.email ≠ q.email)
    rw [List.pairwise_append]
    refine ⟨huniq, List.pairwise_singleton _ _, ?_⟩
    rintro q hq p' hp' haid hem
    rw [List.mem_singleton] at hp'
    subst hp'
    exact hP q hq (by simp [haid, hem])

/-- Deleting any participant row preserves the invariant. -/
lemma inv_erase (s : Store) (p : Participant) (h : Inv s) :
    Inv { s with participants := s.participants.erase p } := by
  obtain ⟨hids, hcap, huniq⟩ := h
  have hsub : List.Sublist (s.participants.erase p) s.participants :=
    List.erase_sublist p s.participants
  refine ⟨hids, ?_, huniq.sublist hsub⟩
  intro b hb hbpos
  have hs : List.Sublist ((s.participants.erase p).filter (fun q => q.activity_id == b.id))
      (s.participants.filter (fun q => q.activity_id == b.id)) :=
    List.Sublist.filter _ hsub
  exact le_trans hs.length_le (hcap b hb hbpos)

/-- Every store reachable through the request handlers satisfies the
invariant. -/
lemma reachable_inv (s : Store) (h : Reachable s) : Inv s := by
  induction h with
  | init => decide
  | signup s n e _ ih =>
    rcases signup_cases s n e with ⟨_, heq⟩ | ⟨act, p, _, _, heq⟩ |
      ⟨act, _, _, _, heq⟩ | ⟨act, hA, hP, hful, heq⟩
    · rw [heq]; exact ih
    · rw [heq]; exact ih
    · rw [heq]; exact ih
    · rw [heq]; exact inv_add_participant s act e (findActivity_mem hA) hP hful ih
  | unregister s n e _ ih =>
    rcases unregister_cases s n e with ⟨_, heq⟩ | ⟨act, _, _, heq⟩ |
      ⟨act, p, _, _, heq⟩
    · rw [heq]; exact ih
    · rw [heq]; exact ih
    · rw [heq]; exact inv_erase s p ih

lemma signup_not_found {s : Store} {A e : String} (h : findActivity s A = none) :
    signup_for_activity s A e = (s, .error .NotFound) := by
  rcases signup_cases s A e with ⟨_, heq⟩ | ⟨act, p, hA, _, _⟩ |
    ⟨act, hA, _, _, _⟩ | ⟨act, hA, _, _, _⟩
  · exact heq
  all_goals rw [h] at hA; simp at hA

lemma signup_dup {s : Store} {A e : String} {act : Activity}
    (hA : findActivity s A = some act) (henr : isEnrolled s act.id e) :
    signup_for_activity s A e = (s, .error .AlreadyEnrolled) := by
  obtain ⟨p0, hP0⟩ := findParticipant_of_enrolled henr
  rcases signup_cases s A e with ⟨h0, _⟩ | ⟨act', p, hA', hP', heq⟩ |
    ⟨act', hA', hP', _, _⟩ | ⟨act', hA', hP', _, _⟩
  · rw [h0] at hA; simp at hA
  · exact heq
  all_goals (rw [hA] at hA'
             obtain rfl := Option.some_inj.mp hA'.symm
             rw [hP0] at hP'
             simp at hP')

lemma signup_full {s : Store} {A e : String} {act : Activity}
    (hA : findActivity s A = some act) (hnew : ¬ isEnrolled s act.id e)
    (hful : isFull s act) :
    signup_for_activity s A e = (s, .error .Full) := by
  rcases signup_cases s A e with ⟨h0, _⟩ | ⟨act', p, hA', hP', heq⟩ |
    ⟨act', hA', hP', _, heq⟩ | ⟨act', hA', hP', hnf, _⟩
  · rw [h0] at hA; simp at hA
  · rw [hA] at hA'; obtain rfl := Option.some_inj.mp hA'.symm
    obtain ⟨hm, h1, h2⟩ := findParticipant_mem hP'
    exact absurd ⟨p, hm, h1, h2⟩ hnew
  · exact heq
  · rw [hA] at hA'; obtain rfl := Option.some_inj.mp hA'.symm
    exact absurd hful hnf

lemma signup_ok {s : Store} {A e : String} {act : Activity}
    (hA : findActivity s A = some act) (hnew : ¬ isEnrolled s act.id e)
    (hnf : ¬ isFull s act) :
    signup_for_activity s A e =
      ({ s with
           participants := s.participants ++ [⟨s.nextParticipantId, e, act.id⟩],
           nextParticipantId := s.nextParticipantId + 1 },
       .ok s!"Signed up {e} for {A}") := by
  rcases signup_cases s A e with ⟨h0, _⟩ | ⟨act', p, hA', hP', heq⟩ |
    ⟨act', hA', hP', hf, _⟩ | ⟨act', hA', hP', _, heq⟩
  · rw [h0] at hA; simp at hA
  · rw [hA] at hA'; obtain rfl := Option.some_inj.mp hA'.symm
    obtain ⟨hm, h1, h2⟩ := findParticipant_mem hP'
    exact absurd ⟨p, hm, h1, h2⟩ hnew
  · rw [hA] at hA'; obtain rfl := Option.some_inj.mp hA'.symm
    exact absurd hf (fun hc => hnew (absurd hc (fun h2 => hnew (False.elim (hnf h2)))))
  · rw [hA] at hA'; obtain rfl := Option.some_inj.mp hA'.symm
    exact heq

lemma unregister_not_found {s : Store} {A e : String}
    (h : findActivity s A = none) :
    unregister_from_activity s A e = (s, .error .NotFound) := by
  rcases unregister_cases s A e with ⟨_, heq⟩ | ⟨act, hA, _, _⟩ | ⟨act, p, hA, _, _⟩
  · exact heq
  all_goals rw [h] at hA; simp at hA

lemma unregister_not_enrolled {s : Store} {A e : String} {act : Activity}
    (hA : findActivity s A = some act) (hnew : ¬ isEnrolled s act.id e) :
    unregister_from_activity s A e = (s, .error .NotEnrolled) := by
  rcases unregister_cases s A e with ⟨h0, _⟩ | ⟨act', hA', _, heq⟩ |
    ⟨act', p, hA', hP', _⟩
  · rw [h0] at hA; simp at hA
  · exact heq
  · rw [hA] at hA'; obtain rfl := Option.some_inj.mp hA'.symm
    obtain ⟨hm, h1, h2⟩ := findParticipant_mem hP'
    exact absurd ⟨p, hm, h1, h2⟩ hnew

lemma unregister_ok {s : Store} {A e : String} {act : Activity} {p : Participant}
    (hA : findActivity s A = some act) (hP : findParticipant s act.id e = some p) :
    unregister_from_activity s A e =
      ({ s with participants := s.participants.erase p },
       .ok s!"Unregistered {e} from {A}") := by
  rcases unregister_cases s A e with ⟨h0, _⟩ | ⟨act', hA', hP', _⟩ |
    ⟨act', p', hA', hP', heq⟩
  · rw [h0] at hA; simp at hA
  · rw [hA] at hA'; obtain rfl := Option.some_inj.mp hA'.symm
    rw [hP] at hP'; simp at hP'
  · rw [hA] at hA'; obtain rfl := Option.some_inj.mp hA'.symm
    rw [hP] at hP'; obtain rfl := Option.some_inj.mp hP'.symm
    exact heq

lemma seedParticipants_foldl_activities (aid : Nat) (ems : List String) (st : Store) :
    (ems.foldl
      (fun st em =>
        { st with
            participants := st.participants ++ [⟨st.nextParticipantId, em, aid⟩]
            nextParticipantId := st.nextParticipantId + 1 }) st).activities =
      st.activities := by
  induction ems generalizing st with
  | nil => rfl
  | cons a l ih => rw [List.foldl_cons]; exact ih _

lemma insertSeedEntry_activities (s : Store) (entry : String × SeedInfo) :
    (insertSeedEntry s entry).activities =
      s.activities ++
        [{ id := s.nextActivityId, name := entry.1,
           description := entry.2.description, schedule := entry.2.schedule,
           max_participants := entry.2.max_participants.getD 0 }] := by
  unfold insertSeedEntry
  rw [seedParticipants_foldl_activities]

lemma foldl_insert_activities_le (seed : List (String × SeedInfo)) (s : Store) :
    s.activities.length ≤ (seed.foldl insertSeedEntry s).activities.length := by
  induction seed generalizing s with
  | nil => exact le_refl _
  | cons en rest ih =>
    rw [List.foldl_cons]
    refine le_trans ?_ (ih (insertSeedEntry s en))
    rw [insertSeedEntry_activities, List.length_append]
    omega

lemma init_db_of_nonempty (s : Store) (seed : List (String × SeedInfo))
    (h : s.activities ≠ []) : init_db s seed = s := by
  unfold init_db
  rcases seed with _ | ⟨en, rest⟩
  · rfl
  · simp [List.length_pos.mpr h]

end MHS

namespace MHS

/-- Fixture: an activity with capacity 1. -/
def wAct : Activity := ⟨1, "X", none, none, 1⟩

/-- Fixture: a store whose single activity is at capacity, with the
email "a@x" enrolled. -/
def wFull : Store := ⟨[wAct], [⟨1, "a@x", 1⟩], 2, 2⟩

/-- Fixture: an activity with capacity 0 (unlimited). -/
def wActZero : Activity := ⟨1, "X", none, none, 0⟩

/-- Fixture: a store whose single activity has capacity 0 and already
holds two participants. -/
def wUnlimited : Store := ⟨[wActZero], [⟨1, "a@x", 1⟩, ⟨2, "b@x", 1⟩], 2, 3⟩

/-- C1: the checks of `signup_for_activity` run in the order existence,
then duplicate enrollment, then capacity, and the first failing check
determines the caller-visible error: an unknown activity always yields
NotFound; an enrolled email always yields AlreadyEnrolled, with no
condition on capacity, so a duplicate wins over a full roster; Full is
reported only when the first two checks pass. -/
theorem C1_signup_check_order :
    (∀ s A e, findActivity s A = none →
       signup_for_activity s A e = (s, .error .NotFound)) ∧
    (∀ s A e act, findActivity s A = some act → isEnrolled s act.id e →
       signup_for_activity s A e = (s, .error .AlreadyEnrolled)) ∧
    (∀ s A e act, findActivity s A = some act → ¬ isEnrolled s act.id e →
       isFull s act → signup_for_activity s A e = (s, .error .Full)) :=
  ⟨fun _ _ _ h => signup_not_found h,
   fun _ _ _ _ hA henr => signup_dup hA henr,
   fun _ _ _ _ hA hnew hful => signup_full hA hnew hful⟩

/-- Witness for C1 at concrete stores: unknown activity on the empty
store, duplicate signup on a full activity (AlreadyEnrolled, not Full),
and a fresh email on a full activity (Full). -/
theorem C1_signup_check_order_witness :
    signup_for_activity emptyStore "X" "a@x" = (emptyStore, .error .NotFound) ∧
    signup_for_activity wFull "X" "a@x" = (wFull, .error .AlreadyEnrolled) ∧
    signup_for_activity wFull "X" "b@x" = (wFull, .error .Full) :=
  ⟨C1_signup_check_order.1 emptyStore "X" "a@x" (by decide),
   C1_signup_check_order.2.1 wFull "X" "a@x" wAct (by decide) (by decide),
   C1_signup_check_order.2.2 wFull "X" "b@x" wAct (by decide) (by decide) (by decide)⟩

/-- C2: signing a not-yet-enrolled email up for an activity with
positive capacity whose roster has reached that capacity fails with
Full (HTTP 400) and leaves the store unchanged. -/
theorem C2_signup_full_rejected (s : Store) (A e : String) (act : Activity)
    (hA : findActivity s A = some act) (hpos : 0 < act.max_participants)
    (hge : act.max_participants ≤ (rosterOf s act.id).length)
    (hnew : ¬ isEnrolled s act.id e) :
    signup_for_activity s A e = (s, .error .Full) ∧
    statusCode .Full = 400 :=
  ⟨signup_full hA hnew ⟨Nat.pos_iff_ne_zero.mp hpos, hge⟩, rfl⟩

/-- Witness for C2: a fresh email against the at-capacity fixture. -/
theorem C2_signup_full_rejected_witness :
    signup_for_activity wFull "X" "b@x" = (wFull, .error .Full) ∧
    statusCode .Full = 400 :=
  C2_signup_full_rejected wFull "X" "b@x" wAct
    (by decide) (by decide) (by decide) (by decide)

/-- C3: signing up an email already on the activity's roster fails with
AlreadyEnrolled (HTTP 400) and leaves the store unchanged; no capacity
condition is involved. -/
theorem C3_signup_duplicate_rejected (s : Store) (A e : String) (act : Activity)
    (hA : findActivity s A = some act) (henr : isEnrolled s act.id e) :
    signup_for_activity s A e = (s, .error .AlreadyEnrolled) ∧
    statusCode .AlreadyEnrolled = 400 :=
  ⟨signup_dup hA henr, rfl⟩

/-- Witness for C3: a duplicate signup on an activity that is also at
capacity still reports AlreadyEnrolled. -/
theorem C3_signup_duplicate_rejected_witness :
    signup_for_activity wFull "X" "a@x" = (wFull, .error .AlreadyEnrolled) ∧
    statusCode .AlreadyEnrolled = 400 :=
  C3_signup_duplicate_rejected wFull "X" "a@x" wAct (by decide) (by decide)

/-- C4: `unregister_from_activity` fails with NotFound (HTTP 404) when
no activity has the given name, fails with NotEnrolled (HTTP 400) when
the email is not on the activity's roster — the store unchanged in both
cases — and otherwise deletes the found Participant row and returns a
confirmation. -/
theorem C4_unregister_contract :
    (∀ s A e, findActivity s A = none →
       unregister_from_activity s A e = (s, .error .NotFound) ∧
       statusCode .NotFound = 404) ∧
    (∀ s A e act, findActivity s A = some act → ¬ isEnrolled s act.id e →
       unregister_from_activity s A e = (s, .error .NotEnrolled) ∧
       statusCode .NotEnrolled = 400) ∧
    (∀ s A e act, findActivity s A = some act → isEnrolled s act.id e →
       ∃ p ∈ s.participants, p.activity_id = act.id ∧ p.email = e ∧
         unregister_from_activity s A e =
           ({ s with participants := s.participants.erase p },
            .ok s!"Unregistered {e} from {A}")) := by
  refine ⟨fun s A e h => ⟨unregister_not_found h, rfl⟩,
          fun s A e act hA hnew => ⟨unregister_not_enrolled hA hnew, rfl⟩,
          fun s A e act hA henr => ?_⟩
  obtain ⟨p, hP⟩ := findParticipant_of_enrolled henr
  obtain ⟨hm, h1, h2⟩ := findParticipant_mem hP
  exact ⟨p, hm, h1, h2, unregister_ok hA hP⟩

/-- Witness for C4: NotFound on the empty store, NotEnrolled for a
fresh email, and removal of the single enrolled row. -/
theorem C4_unregister_contract_witness :
    (unregister_from_activity emptyStore "X" "a@x" =
        (emptyStore, .error .NotFound) ∧ statusCode .NotFound = 404) ∧
    (unregister_from_activity wFull "X" "b@x" =
        (wFull, .error .NotEnrolled) ∧ statusCode .NotEnrolled = 400) ∧
    (unregister_from_activity wFull "X" "a@x").1.participants = [] := by
  refine ⟨C4_unregister_contract.1 emptyStore "X" "a@x" (by decide),
          C4_unregister_contract.2.1 wFull "X" "b@x" wAct (by decide) (by decide),
          ?_⟩
  obtain ⟨p, hm, h1, h2, heq⟩ :=
    C4_unregister_contract.2.2 wFull "X" "a@x" wAct (by decide) (by decide)
  have hp : p = ⟨1, "a@x", 1⟩ := by
    simpa [wFull] using hm
  subst hp
  rw [heq]
  decide

end MHS

namespace MHS

/-- C5: initialization is idempotent. Running `init_db` twice on any
store with any seed mapping leaves exactly the rows a single run
leaves, and on a store that already has an Activity row `init_db`
inserts and overwrites nothing. -/
theorem C5_init_db_idempotent :
    (∀ s seed, init_db (init_db s seed) seed = init_db s seed) ∧
    (∀ s seed, s.activities ≠ [] → init_db s seed = s) := by
  refine ⟨fun s seed => ?_, init_db_of_nonempty⟩
  rcases seed with _ | ⟨en, rest⟩
  · rfl
  · by_cases h : s.activities = []
    · have h1 : init_db s (en :: rest) = (en :: rest).foldl insertSeedEntry s := by
        simp [init_db, h]
      rw [h1]
      apply init_db_of_nonempty
      have h2 : 1 ≤ ((en :: rest).foldl insertSeedEntry s).activities.length := by
        rw [List.foldl_cons]
        refine le_trans ?_ (foldl_insert_activities_le rest (insertSeedEntry s en))
        rw [insertSeedEntry_activities, List.length_append, List.length_singleton]
        omega
      intro hc
      rw [hc] at h2
      simp at h2
    · rw [init_db_of_nonempty s (en :: rest) h]
      exact init_db_of_nonempty s (en :: rest) h

/-- Witness for C5: the real seed on a fresh store, and a no-op on a
non-empty store. -/
theorem C5_init_db_idempotent_witness :
    init_db (init_db emptyStore seed_data) seed_data =
      init_db emptyStore seed_data ∧
    init_db wFull seed_data = wFull :=
  ⟨C5_init_db_idempotent.1 emptyStore seed_data,
   C5_init_db_idempotent.2 wFull seed_data (by decide)⟩

end MHS

namespace MHS

/-- C6: a successful signup followed by unregister for the same
activity name and email succeeds and restores the Participant rows —
hence the roster membership of every activity — to exactly their state
before the signup. -/
theorem C6_signup_unregister_roundtrip (s s2 : Store) (A e m : String)
    (h : signup_for_activity s A e = (s2, Except.ok m)) :
    (∃ m2, (unregister_from_activity s2 A e).2 = Except.ok m2) ∧
    (unregister_from_activity s2 A e).1.participants = s.participants := by
  rcases signup_cases s A e with ⟨_, heq⟩ | ⟨act, p, _, _, heq⟩ |
    ⟨act, _, _, _, heq⟩ | ⟨act, hA, hP, _, heq⟩
  · rw [heq] at h; simp at h
  · rw [heq] at h; simp at h
  · rw [heq] at h; simp at h
  · rw [heq] at h
    obtain ⟨hs2, -⟩ := Prod.ext_iff.mp h
    subst hs2
    have hA2 : findActivity
        { s with
            participants := s.participants ++ [⟨s.nextParticipantId, e, act.id⟩],
            nextParticipantId := s.nextParticipantId + 1 } A = some act := hA
    have hq : ((⟨s.nextParticipantId, e, act.id⟩ : Participant).activity_id == act.id &&
        (⟨s.nextParticipantId, e, act.id⟩ : Participant).email == e) = true := by simp
    have hP2 : findParticipant
        { s with
            participants := s.participants ++ [⟨s.nextParticipantId, e, act.id⟩],
            nextParticipantId := s.nextParticipantId + 1 } act.id e =
        some ⟨s.nextParticipantId, e, act.id⟩ := by
      show (s.participants ++ [(⟨s.nextParticipantId, e, act.id⟩ : Participant)]).find?
          (fun q => q.activity_id == act.id && q.email == e) = _
      rw [find?_append_none _ _ hP]
      exact List.find?_cons_of_pos _ hq
    have hnotmem : (⟨s.nextParticipantId, e, act.id⟩ : Participant) ∉ s.participants := by
      intro hmem
      exact findParticipant_none hP ⟨_, hmem, rfl, rfl⟩
    rw [unregister_ok hA2 hP2]
    refine ⟨⟨_, rfl⟩, ?_⟩
    show (s.participants ++ [(⟨s.nextParticipantId, e, act.id⟩ : Participant)]).erase
        ⟨s.nextParticipantId, e, act.id⟩ = s.participants
    rw [List.erase_append_right _ hnotmem, List.erase_cons_head, List.append_nil]

/-- Witness for C6: sign a new email up for Chess Club in the seeded
state, unregister it again, and the Participant rows are back to the
seeded ones. -/
theorem C6_signup_unregister_roundtrip_witness :
    (unregister_from_activity
        (signup_for_activity initState "Chess Club" "new@x.edu").1
        "Chess Club" "new@x.edu").1.participants = initState.participants :=
  (C6_signup_unregister_roundtrip initState
      (signup_for_activity initState "Chess Club" "new@x.edu").1
      "Chess Club" "new@x.edu" "Signed up new@x.edu for Chess Club" rfl).2

/-- C7: in every store reachable from the seeded initial state by
serialized signup and unregister requests, every activity with a
positive `max_participants` has a roster of at most that size. -/
theorem C7_capacity_never_exceeded (s : Store) (h : Reachable s) :
    CapacityOK s :=
  (reachable_inv s h).2.1

/-- Witness for C7: the invariant holds of the seeded initial state. -/
theorem C7_capacity_never_exceeded_witness : CapacityOK initState :=
  C7_capacity_never_exceeded initState Reachable.init

/-- C8: in every store reachable from the seeded initial state by
serialized signup and unregister requests — the seeding included — no
two Participant rows of the same activity share an email. -/
theorem C8_per_activity_emails_unique (s : Store) (h : Reachable s) :
    UniqueEmails s :=
  (reachable_inv s h).2.2

/-- Witness for C8: the invariant holds of the seeded initial state. -/
theorem C8_per_activity_emails_unique_witness : UniqueEmails initState :=
  C8_per_activity_emails_unique initState Reachable.init

/-- C9: `max_participants = 0` means unlimited — a signup of a fresh
email for such an activity never fails with Full — and a seed entry
with no capacity set is stored by initialization with capacity 0. -/
theorem C9_zero_capacity_unlimited :
    (∀ s A e act, findActivity s A = some act → act.max_participants = 0 →
       ¬ isEnrolled s act.id e →
       (signup_for_activity s A e).2 ≠ Except.error ApiError.Full) ∧
    (∀ s entry, entry.2.max_participants = none →
       (insertSeedEntry s entry).activities.map (fun a => a.max_participants) =
         s.activities.map (fun a => a.max_participants) ++ [0]) := by
  constructor
  · intro s A e act hA h0 hnew
    rw [signup_ok hA hnew (fun hc => hc.1 h0)]
    simp
  · intro s entry h
    simp [insertSeedEntry_activities, h]

/-- Witness for C9: a third signup on a capacity-0 activity with two
participants is not rejected as Full, and an unset seed capacity is
stored as 0. -/
theorem C9_zero_capacity_unlimited_witness :
    (signup_for_activity wUnlimited "X" "c@x").2 ≠ Except.error ApiError.Full ∧
    (insertSeedEntry emptyStore ("X", ⟨none, none, none, []⟩)).activities.map
        (fun a => a.max_participants) =
      emptyStore.activities.map (fun a => a.max_participants) ++ [0] :=
  ⟨C9_zero_capacity_unlimited.1 wUnlimited "X" "c@x" wActZero
      (by decide) (by decide) (by decide),
   C9_zero_capacity_unlimited.2 emptyStore ("X", ⟨none, none, none, []⟩) rfl⟩

/-- C10: a successful unregister removes exactly one Participant row —
one matching the activity's id and the given email — and every other
row survives unchanged and in order: all Activity rows, and all
Participant rows before and after the removed one. -/
theorem C10_unregister_frame (s s2 : Store) (A e m : String)
    (h : unregister_from_activity s A e = (s2, Except.ok m)) :
    ∃ act p l1 l2,
      findActivity s A = some act ∧ p.activity_id = act.id ∧ p.email = e ∧
      s.participants = l1 ++ p :: l2 ∧ s2.participants = l1 ++ l2 ∧
      s2.activities = s.activities := by
  rcases unregister_cases s A e with ⟨_, heq⟩ | ⟨act, _, _, heq⟩ |
    ⟨act, p, hA, hP, heq⟩
  · rw [heq] at h; simp at h
  · rw [heq] at h; simp at h
  · rw [heq] at h
    obtain ⟨hs2, -⟩ := Prod.ext_iff.mp h
    subst hs2
    obtain ⟨hm, h1, h2⟩ := findParticipant_mem hP
    obtain ⟨l1, l2, -, hsplit, herase⟩ := List.exists_erase_eq hm
    exact ⟨act, p, l1, l2, hA, h1, h2, hsplit, herase, rfl⟩

/-- Witness for C10: unregistering the only enrolled email of the
fixture leaves the Activity rows untouched. -/
theorem C10_unregister_frame_witness :
    ∃ act p l1 l2,
      findActivity wFull "X" = some act ∧ p.activity_id = act.id ∧
      p.email = "a@x" ∧ wFull.participants = l1 ++ p :: l2 ∧
      (unregister_from_activity wFull "X" "a@x").1.participants = l1 ++ l2 ∧
      (unregister_from_activity wFull "X" "a@x").1.activities = wFull.activities :=
  C10_unregister_frame wFull (unregister_from_activity wFull "X" "a@x").1
    "X" "a@x" "Unregistered a@x from X" rfl

end MHS
